import Mathlib

/-!
Verification development for the EUserv renewal bot
(`Euserv_Renewal.py`, `pin_extractor.py`, `renewal_script.py`).

The Python sources are shallowly embedded: pure helpers become Lean
functions, the stateful flows (login, mailbox polling, renewal run)
become functions over explicit environments that record the outcome of
each external interaction, and every raised exception becomes an
`Except` error value.  External library behaviour (the `ast` parser for
arithmetic strings, `base64.b32decode`, HMAC-SHA1, the IMAP search) is
modelled to the extent the embedded code exercises it; each such model
carries a comment stating its scope.
-/

namespace Euserv

/-! ## Constants from `Euserv_Renewal.py` -/

def EXIT_SUCCESS : Nat := 0
def EXIT_FAILURE : Nat := 1
def EXIT_SKIPPED : Nat := 2

def LOGIN_MAX_RETRY_COUNT : Nat := 3
def WAITING_TIME_OF_PIN : Nat := 30
def EMAIL_CHECK_INTERVAL : Nat := 30
def EMAIL_MAX_RETRIES : Nat := 3

def CAPTCHA_PROMPT : String :=
  "To finish the login process please solve the following captcha."
def TWO_FA_PROMPT : String :=
  "To finish the login process enter the PIN that is shown in yout authenticator app."
def LOGIN_SUCCESS_INDICATORS : List String :=
  ["Hello", "Confirm or change your customer data here"]

/-! ## Python AST fragment reachable from `_safe_eval_math`

`_safe_eval_math` feeds its argument to `ast.parse(expr, mode='eval')`
and walks the resulting tree.  We model the fragment of Python
expression syntax over the alphabet `0-9 + - * / ( )` and space:
integer literals (with Python 3's leading-zero restriction), the binary
operators `+ - * / // **`, unary `+`/`-`, parenthesised expressions and
call postfixes.  Identifiers, attribute accesses, floats, strings and
other literals are outside the modelled alphabet; the `name`/`attr`
constructors exist so that trees containing them can still be discussed
at the AST level (they are what `ast.parse` produces for identifier
input, and what the general `eval` of `renewal_script.py` executes). -/

inductive PyOp where
  | add | sub | mult | div | pow | floorDiv
  deriving DecidableEq, Repr

inductive PyAst where
  | constInt (n : Nat)
  | binOp (l : PyAst) (op : PyOp) (r : PyAst)
  | unaryOp (e : PyAst)
  | call0 (f : PyAst)
  | call1 (f : PyAst) (arg : PyAst)
  | name (s : String)
  | attr (o : PyAst) (a : String)
  deriving Repr

/-! ### Lexer -/

inductive Tok where
  | int (ds : List Char)
  | plus | minus | star | slash | dstar | dslash | lparen | rparen
  deriving DecidableEq, Repr

/-- Python 3 rejects decimal integer literals with a leading zero unless
the literal consists solely of zeros (`0`, `00` parse; `01` does not). -/
def validIntLit (ds : List Char) : Bool :=
  match ds with
  | [] => false
  | '0' :: rest => rest.all (· == '0')
  | _ => true

/-- Tokeniser worker, fuel-indexed (each step consumes at least one
character, so fuel `≥` input length never runs out). -/
def lexGo : Nat → List Char → Option (List Tok)
  | _, [] => some []
  | 0, _ :: _ => none
  | f + 1, c :: rest =>
    if c = ' ' then lexGo f rest
    else if c.isDigit then
      let ds := (c :: rest).takeWhile Char.isDigit
      let rest' := (c :: rest).dropWhile Char.isDigit
      if validIntLit ds then (lexGo f rest').map (Tok.int ds :: ·) else none
    else if c = '+' then (lexGo f rest).map (Tok.plus :: ·)
    else if c = '-' then (lexGo f rest).map (Tok.minus :: ·)
    else if c = '*' then
      match rest with
      | '*' :: rest' => (lexGo f rest').map (Tok.dstar :: ·)
      | _ => (lexGo f rest).map (Tok.star :: ·)
    else if c = '/' then
      match rest with
      | '/' :: rest' => (lexGo f rest').map (Tok.dslash :: ·)
      | _ => (lexGo f rest).map (Tok.slash :: ·)
    else if c = '(' then (lexGo f rest).map (Tok.lparen :: ·)
    else if c = ')' then (lexGo f rest).map (Tok.rparen :: ·)
    else none

/-- Tokeniser for the modelled alphabet.  Any character outside
`0-9 + - * / ( )` and space is a syntax error (`none`), as is an
invalid integer literal. -/
def lexArith (l : List Char) : Option (List Tok) :=
  lexGo l.length l

def digitsToNat (ds : List Char) : Nat :=
  ds.foldl (fun a c => a * 10 + (c.toNat - '0'.toNat)) 0

/-! ### Recursive-descent parser, mirroring Python's expression grammar
restricted to the modelled tokens:

    a_expr  := m_expr (('+'|'-') m_expr)*
    m_expr  := u_expr (('*'|'/'|'//') u_expr)*
    u_expr  := ('+'|'-') u_expr | power
    power   := primary ('**' u_expr)?
    primary := atom ('(' [a_expr] ')')*
    atom    := INT | '(' a_expr ')'

All functions are fuel-indexed to make termination structural. -/

mutual

def parseAdd (fuel : Nat) (ts : List Tok) : Option (PyAst × List Tok) :=
  match fuel with
  | 0 => none
  | f + 1 =>
    match parseMul f ts with
    | none => none
    | some (e, ts') => parseAddChain f e ts'

def parseAddChain (fuel : Nat) (acc : PyAst) (ts : List Tok) : Option (PyAst × List Tok) :=
  match fuel with
  | 0 => none
  | f + 1 =>
    match ts with
    | Tok.plus :: ts' =>
      match parseMul f ts' with
      | none => none
      | some (r, ts'') => parseAddChain f (.binOp acc .add r) ts''
    | Tok.minus :: ts' =>
      match parseMul f ts' with
      | none => none
      | some (r, ts'') => parseAddChain f (.binOp acc .sub r) ts''
    | _ => some (acc, ts)

def parseMul (fuel : Nat) (ts : List Tok) : Option (PyAst × List Tok) :=
  match fuel with
  | 0 => none
  | f + 1 =>
    match parseUnary f ts with
    | none => none
    | some (e, ts') => parseMulChain f e ts'

def parseMulChain (fuel : Nat) (acc : PyAst) (ts : List Tok) : Option (PyAst × List Tok) :=
  match fuel with
  | 0 => none
  | f + 1 =>
    match ts with
    | Tok.star :: ts' =>
      match parseUnary f ts' with
      | none => none
      | some (r, ts'') => parseMulChain f (.binOp acc .mult r) ts''
    | Tok.slash :: ts' =>
      match parseUnary f ts' with
      | none => none
      | some (r, ts'') => parseMulChain f (.binOp acc .div r) ts''
    | Tok.dslash :: ts' =>
      match parseUnary f ts' with
      | none => none
      | some (r, ts'') => parseMulChain f (.binOp acc .floorDiv r) ts''
    | _ => some (acc, ts)

def parseUnary (fuel : Nat) (ts : List Tok) : Option (PyAst × List Tok) :=
  match fuel with
  | 0 => none
  | f + 1 =>
    match ts with
    | Tok.plus :: ts' => (parseUnary f ts').map (fun (e, r) => (.unaryOp e, r))
    | Tok.minus :: ts' => (parseUnary f ts').map (fun (e, r) => (.unaryOp e, r))
    | _ => parsePower f ts

def parsePower (fuel : Nat) (ts : List Tok) : Option (PyAst × List Tok) :=
  match fuel with
  | 0 => none
  | f + 1 =>
    match parsePrimary f ts with
    | none => none
    | some (p, ts') =>
      match ts' with
      | Tok.dstar :: ts'' => (parseUnary f ts'').map (fun (r, rest) => (.binOp p .pow r, rest))
      | _ => some (p, ts')

def parsePrimary (fuel : Nat) (ts : List Tok) : Option (PyAst × List Tok) :=
  match fuel with
  | 0 => none
  | f + 1 =>
    match parseAtom f ts with
    | none => none
    | some (a, ts') => parsePostfix f a ts'

def parsePostfix (fuel : Nat) (acc : PyAst) (ts : List Tok) : Option (PyAst × List Tok) :=
  match fuel with
  | 0 => none
  | f + 1 =>
    match ts with
    | Tok.lparen :: Tok.rparen :: ts' => parsePostfix f (.call0 acc) ts'
    | Tok.lparen :: ts' =>
      match parseAdd f ts' with
      | none => none
      | some (arg, Tok.rparen :: ts'') => parsePostfix f (.call1 acc arg) ts''
      | some _ => none
    | _ => some (acc, ts)

def parseAtom (fuel : Nat) (ts : List Tok) : Option (PyAst × List Tok) :=
  match fuel with
  | 0 => none
  | f + 1 =>
    match ts with
    | Tok.int ds :: ts' => some (.constInt (digitsToNat ds), ts')
    | Tok.lparen :: ts' =>
      match parseAdd f ts' with
      | none => none
      | some (e, Tok.rparen :: ts'') => some (e, ts'')
      | some _ => none
    | _ => none

end

/-- Model of `ast.parse(expr, mode='eval').body` on the modelled
alphabet: tokenise, parse a full expression, require the input to be
exhausted.  `none` stands for a `SyntaxError`. -/
def pyParseArith (s : String) : Option PyAst :=
  match lexArith s.toList with
  | none => none
  | some ts =>
    match parseAdd (8 * ts.length + 16) ts with
    | some (e, []) => some e
    | _ => none

/-! ### The `_eval` walker of `_safe_eval_math` -/

/-- The `ops` dict of `_safe_eval_math` maps exactly `Add`, `Sub`,
`Mult` and `Div`; note the source maps `ast.Div` to
`operator.floordiv`. -/
def opSupported : PyOp → Bool
  | .add | .sub | .mult | .div => true
  | _ => false

def applyOp : PyOp → Int → Int → Except Unit Int
  | .add, a, b => .ok (a + b)
  | .sub, a, b => .ok (a - b)
  | .mult, a, b => .ok (a * b)
  | .div, a, b => if b = 0 then .error () else .ok (Int.fdiv a b)
  | _, _, _ => .error ()

/-- `_eval`: constants return their value, `BinOp`s whose operator class
is in `ops` recurse, everything else raises `ValueError` (here
`.error ()`, which also stands for the `ZeroDivisionError` of
`floordiv`). -/
def pyEvalNode : PyAst → Except Unit Int
  | .constInt n => .ok n
  | .binOp l op r =>
    if opSupported op then
      match pyEvalNode l with
      | .error e => .error e
      | .ok a =>
        match pyEvalNode r with
        | .error e => .error e
        | .ok b => applyOp op a b
    else .error ()
  | _ => .error ()

/-- `_safe_eval_math`: parse, evaluate, convert to `int` (identity on
the integer values produced here); `SyntaxError`, `ValueError` and
`ZeroDivisionError` are caught and become `None`. -/
def safeEvalMathStr (s : String) : Option Int :=
  match pyParseArith s with
  | none => none
  | some t => (pyEvalNode t).toOption

/-! ### Specification-side arithmetic denotation

An independent "closed grammar" of number literals and the four binary
operators, with floor division, used to state what `_safe_eval_math`
computes on supported trees. -/

inductive Arith where
  | num (n : Nat)
  | add (l r : Arith)
  | sub (l r : Arith)
  | mul (l r : Arith)
  | div (l r : Arith)
  deriving Repr

def Arith.evalA : Arith → Option Int
  | .num n => some n
  | .add l r =>
    match l.evalA, r.evalA with
    | some a, some b => some (a + b)
    | _, _ => none
  | .sub l r =>
    match l.evalA, r.evalA with
    | some a, some b => some (a - b)
    | _, _ => none
  | .mul l r =>
    match l.evalA, r.evalA with
    | some a, some b => some (a * b)
    | _, _ => none
  | .div l r =>
    match l.evalA, r.evalA with
    | some a, some b => if b = 0 then none else some (Int.fdiv a b)
    | _, _ => none

/-- A Python tree lies in the closed grammar exactly when it converts
to an `Arith` term: number literals and the four supported binary
operators, nothing else. -/
def toArith : PyAst → Option Arith
  | .constInt n => some (.num n)
  | .binOp l op r =>
    match toArith l with
    | none => none
    | some a =>
      match toArith r with
      | none => none
      | some b =>
        match op with
        | .add => some (.add a b)
        | .sub => some (.sub a b)
        | .mult => some (.mul a b)
        | .div => some (.div a b)
        | _ => none
  | _ => none

/-- The alphabet over which the `ast.parse` model is character-exact
with CPython (no identifiers, floats, string literals, …). -/
def wellScanned (s : String) : Bool :=
  s.toList.all (fun c => c ∈ "0123456789+-*/() ".toList)

/-! ### The general `eval` of `renewal_script.py`

`renewal_script.solve_captcha_api` computes
`str(eval(captcha_result))` on the text recognised by the remote
CAPTCHA API.  We model the interaction effects the CPython `eval`
performs while evaluating such a tree: resolving a name in the
environment, accessing an attribute, performing a call. -/

inductive GEffect where
  | nameLookup (s : String)
  | attrAccess (s : String)
  | callPerformed
  deriving DecidableEq, Repr

/-- Effects performed by the builtin `eval` when evaluating a tree. -/
def generalEvalEffects : PyAst → List GEffect
  | .constInt _ => []
  | .binOp l _ r => generalEvalEffects l ++ generalEvalEffects r
  | .unaryOp e => generalEvalEffects e
  | .name s => [.nameLookup s]
  | .attr o a => generalEvalEffects o ++ [.attrAccess a]
  | .call0 f => generalEvalEffects f ++ [.callPerformed]
  | .call1 f a =>
    generalEvalEffects f ++ generalEvalEffects a ++ [.callPerformed]

/-- `renewal_script.solve_captcha_api`, line `str(eval(captcha_result))`:
the effects the builtin `eval` performs on the recognised text (empty
when the text does not even parse). -/
def solveCaptchaApiEval (recognized : String) : List GEffect :=
  match pyParseArith recognized with
  | some t => generalEvalEffects t
  | none => []

/-! ## `_clean_math_expr` and `_try_solve_math` -/

def isPySpace (c : Char) : Bool :=
  c ∈ [' ', '\t', '\n', '\r', '\x0b', '\x0c']

/-- `str.strip()` (ASCII whitespace; the inputs reaching it here are
byte strings from OCR / the CAPTCHA API). -/
def pyStripL (l : List Char) : List Char :=
  ((l.dropWhile isPySpace).reverse.dropWhile isPySpace).reverse

def mathAlphabet : List Char := "0123456789+-*/".toList

/-- `str.replace` with a single-character pattern is a character map. -/
def replaceChar (a b : Char) (l : List Char) : List Char :=
  l.map (fun c => if c = a then b else c)

/-- `_clean_math_expr`: replace `x`/`X` by `*`, delete `=`, strip, then
keep only digits and operators. -/
def cleanMathExpr (raw : String) : String :=
  let s1 := replaceChar 'x' '*' raw.toList
  let s2 := replaceChar 'X' '*' s1
  let s3 := s2.filter (· ≠ '=')
  let s4 := pyStripL s3
  ⟨s4.filter (· ∈ mathAlphabet)⟩

/-- `_try_solve_math`: clean, require a nonempty result containing at
least one operator, evaluate, render the integer. -/
def trySolveMath (raw : String) : Option String :=
  let cleaned := cleanMathExpr raw
  if cleaned ≠ "" ∧ (['+', '-', '*', '/'].any (fun op => cleaned.toList.contains op)) then
    match safeEvalMathStr cleaned with
    | some r => some (toString r)
    | none => none
  else none

/-- Specification-side single-character cleaning map: `x`/`X` become
`*`, characters of the retained alphabet survive, everything else
(including `=`) is deleted. -/
def cleanCharSpec (c : Char) : Option Char :=
  if c = 'x' ∨ c = 'X' then some '*'
  else if c ∈ mathAlphabet then some c
  else none

/-! ## `RenewalBot._solve_captcha`

The solver is driven by `self.current_login_attempt` and the presence
of `CAPTCHA_USERID`/`CAPTCHA_APIKEY`.  The environment records what the
local OCR and each successive remote-API invocation would return
(`none`/empty text are both falsy in the Python `if result:` tests);
a local exception is `.error ()`. -/

inductive CapEv where
  | apiCall
  | localCall
  deriving DecidableEq, Repr

structure CapEnv where
  creds : Bool
  localRes : Except Unit (Option String)
  apiRes : Nat → Option String

/-- Python truthiness of an `Optional[str]`. -/
def truthyS : Option String → Bool
  | some s => !(s == "")
  | none => false

/-- The part of `_solve_captcha` after the forced-API block: local OCR
first (falsy results and exceptions both fall through), then the
remote API as fallback if credentials exist, else `CaptchaError`.
`k` counts remote-API invocations already made. -/
def solveCaptchaRest (env : CapEnv) (k : Nat) : List CapEv × Except Unit String :=
  let localVal : Option String :=
    match env.localRes with
    | .ok r => if truthyS r then r else none
    | .error _ => none
  match localVal with
  | some r => ([.localCall], .ok r)
  | none =>
    if env.creds then
      if truthyS (env.apiRes k) then
        ([.localCall, .apiCall], .ok ((env.apiRes k).getD ""))
      else ([.localCall, .apiCall], .error ())
    else ([.localCall], .error ())

/-- `_solve_captcha`: from the third login attempt on, with API
credentials configured, call the remote API first and return its
result if usable; otherwise local OCR, then remote-API fallback. -/
def solveCaptcha (attempt : Nat) (env : CapEnv) : List CapEv × Except Unit String :=
  if 3 ≤ attempt ∧ env.creds then
    if truthyS (env.apiRes 0) then ([.apiCall], .ok ((env.apiRes 0).getD ""))
    else
      let (tr, r) := solveCaptchaRest env 1
      (.apiCall :: tr, r)
  else solveCaptchaRest env 0

/-! ## `_hotp` / `_totp`

`_hotp` base32-decodes the (uppercased, `=`-padded) secret, MACs the
big-endian 8-byte counter with HMAC-SHA1, dynamically truncates, and
renders `str(binary)[-6:].zfill(6)`.  SHA-1 and `base64.b32decode` are
implemented below over byte lists (`Nat`s `< 256`); a decode failure
(`binascii.Error`) or a counter outside `>Q` range propagates as
`none`. -/

def p32 : Nat := 4294967296

def bNot32 (x : Nat) : Nat := x ^^^ (p32 - 1)

def rotl (n x : Nat) : Nat :=
  (((x <<< n) % p32) ||| (x >>> (32 - n)))

/-- Big-endian bytes of `v`, `w` bytes wide. -/
def beBytes : Nat → Nat → List Nat
  | 0, _ => []
  | w + 1, v => beBytes w (v / 256) ++ [v % 256]

def beToNat (l : List Nat) : Nat :=
  l.foldl (fun a b => a * 256 + b) 0

/-- SHA-1 message padding: `0x80`, zeros to 56 mod 64, 8-byte bit length. -/
def sha1Pad (msg : List Nat) : List Nat :=
  let padZeros := (119 - msg.length % 64) % 64
  msg ++ [0x80] ++ List.replicate padZeros 0 ++ beBytes 8 (msg.length * 8)

/-- Extend the 16 schedule words to 80. -/
def sha1Extend : Nat → List Nat → List Nat
  | 0, w => w
  | n + 1, w =>
    let i := w.length
    sha1Extend n
      (w ++ [rotl 1 (w.getD (i - 3) 0 ^^^ w.getD (i - 8) 0 ^^^
                     w.getD (i - 14) 0 ^^^ w.getD (i - 16) 0)])

def sha1Round (w : List Nat) (st : Nat × Nat × Nat × Nat × Nat) (i : Nat) :
    Nat × Nat × Nat × Nat × Nat :=
  let (a, b, c, d, e) := st
  let f :=
    if i < 20 then (b &&& c) ||| (bNot32 b &&& d)
    else if i < 40 then b ^^^ c ^^^ d
    else if i < 60 then (b &&& c) ||| (b &&& d) ||| (c &&& d)
    else b ^^^ c ^^^ d
  let k :=
    if i < 20 then 0x5A827999
    else if i < 40 then 0x6ED9EBA1
    else if i < 60 then 0x8F1BBCDC
    else 0xCA62C1D6
  let temp := (rotl 5 a + f + e + k + w.getD i 0) % p32
  (temp, a, rotl 30 b, c, d)

def sha1Compress (h : Nat × Nat × Nat × Nat × Nat) (block : List Nat) :
    Nat × Nat × Nat × Nat × Nat :=
  let w16 := (List.range 16).map (fun i => beToNat ((block.drop (4 * i)).take 4))
  let w := sha1Extend 64 w16
  let (a, b, c, d, e) := (List.range 80).foldl (sha1Round w) h
  let (h0, h1, h2, h3, h4) := h
  ((h0 + a) % p32, (h1 + b) % p32, (h2 + c) % p32, (h3 + d) % p32, (h4 + e) % p32)

/-- Process the padded message 64 bytes at a time (fuel = block count). -/
def sha1Blocks : Nat → (Nat × Nat × Nat × Nat × Nat) → List Nat →
    Nat × Nat × Nat × Nat × Nat
  | 0, h, _ => h
  | n + 1, h, data => sha1Blocks n (sha1Compress h (data.take 64)) (data.drop 64)

def sha1 (msg : List Nat) : List Nat :=
  let padded := sha1Pad msg
  let (h0, h1, h2, h3, h4) :=
    sha1Blocks (padded.length / 64)
      (0x67452301, 0xEFCDAB89, 0x98BADCFE, 0x10325476, 0xC3D2E1F0) padded
  beBytes 4 h0 ++ beBytes 4 h1 ++ beBytes 4 h2 ++ beBytes 4 h3 ++ beBytes 4 h4

/-- HMAC-SHA1 (`hmac.new(key, msg, 'sha1')`), block size 64. -/
def hmacSha1 (key msg : List Nat) : List Nat :=
  let k0 := if 64 < key.length then sha1 key else key
  let k := k0 ++ List.replicate (64 - k0.length) 0
  sha1 ((k.map (· ^^^ 0x5c)) ++ sha1 ((k.map (· ^^^ 0x36)) ++ msg))

/-! ### `base64.b32decode` -/

def b32CharVal (c : Char) : Option Nat :=
  if 'A' ≤ c ∧ c ≤ 'Z' then some (c.toNat - 'A'.toNat)
  else if '2' ≤ c ∧ c ≤ '7' then some (c.toNat - '2'.toNat + 26)
  else none

/-- Bytes of one base32 quantum of `8 - pad` data characters: the
accumulated 5-bit values, shifted up by the missing characters, big
endian over 5 bytes, keeping `(43 - 5*pad) / 8` bytes. -/
def b32Quantum (vals : List Nat) (pad : Nat) : List Nat :=
  let acc := vals.foldl (fun a v => a * 32 + v) 0
  (beBytes 5 (acc <<< (5 * pad))).take ((43 - 5 * pad) / 8)

def b32Groups : Nat → List Nat → List Nat
  | 0, _ => []
  | n + 1, vals => b32Quantum (vals.take 8) 0 ++ b32Groups n (vals.drop 8)

/-- `base64.b32decode`: length must be a multiple of 8; trailing `=`
padding must be one of the legal amounts; every data character must be
a base32 digit.  `none` models `binascii.Error`. -/
def b32decode (s : List Char) : Option (List Nat) :=
  if s.length % 8 ≠ 0 then none
  else
    let data := (s.reverse.dropWhile (· = '=')).reverse
    let pad := s.length - data.length
    if pad ∈ [0, 1, 3, 4, 6] then
      match data.mapM b32CharVal with
      | none => none
      | some vals =>
        if pad = 0 then some (b32Groups (vals.length / 8) vals)
        else
          some (b32Groups (vals.length / 8) (vals.take (8 * (vals.length / 8))) ++
                b32Quantum (vals.drop (8 * (vals.length / 8))) pad)
    else none

/-- `str(binary)[-k:].zfill(k)` for the nonnegative `binary` produced
by dynamic truncation: the last `k` decimal digits, zero padded. -/
def zfillDigits : Nat → Nat → List Char
  | 0, _ => []
  | k + 1, n => zfillDigits k (n / 10) ++ [Nat.digitChar (n % 10)]

/-- `_hotp`: uppercase and pad the key, base32-decode, HMAC the 8-byte
big-endian counter, dynamically truncate, render 6 digits.  `none`
models the uncaught `binascii.Error` / `struct.error`.  The pad count
`'=' * ((8 - len(key)) % 8)` uses Python's signed modulo; over `Nat`
the equal value is `(8 - len % 8) % 8`. -/
def hotpM (key : String) (counter : Nat) (digits : Nat := 6) : Option String :=
  let padded := (key.toList.map Char.toUpper) ++
    List.replicate ((8 - key.length % 8) % 8) '='
  match b32decode padded with
  | none => none
  | some keyBytes =>
    if counter < 2 ^ 64 then
      let mac := hmacSha1 keyBytes (beBytes 8 counter)
      let offset := mac.getD 19 0 &&& 0xf
      let binary := beToNat ((mac.drop offset).take 4) &&& 0x7fffffff
      some ⟨zfillDigits digits binary⟩
    else none

/-- `_totp`: `_hotp` at counter `int(time.time() / time_step)`; the
current time is a parameter of the model. -/
def totpM (key : String) (now : Nat) (timeStep : Nat := 30) : Option String :=
  hotpM key (now / timeStep)

/-! ## Login state machine (`_attempt_login`, `_perform_login`)

The HTTP responses are environment data: the text of the response to
the credential POST, the text after resubmitting with the CAPTCHA
answer, and the text after submitting the 2FA code.  The `in` tests of
the source are substring tests. -/

/-- `needle in haystack` on Python strings. -/
def containsSub (needle haystack : String) : Bool :=
  go needle.toList haystack.toList
where
  go (n : List Char) : List Char → Bool
    | [] => n.isPrefixOf []
    | h@(_ :: t) => n.isPrefixOf h || go n t

/-- `_is_login_success`: any of the success indicators occurs. -/
def isLoginSuccessM (text : String) : Bool :=
  LOGIN_SUCCESS_INDICATORS.any (fun ind => containsSub ind text)

structure LoginEnv where
  sessId : Option String
  firstResp : String
  captchaCode : Except Unit String
  postCaptchaResp : String
  twoFaConfigured : Bool
  postTwoFaResp : String

inductive AttemptExc where
  | requestsOrValue
  | captcha
  deriving DecidableEq, Repr

/-- `_handle_captcha`: solve (a `CaptchaError` propagates), resubmit
the login data with the answer; if the challenge marker persists the
handler returns `None` (failed attempt), else the new response. -/
def handleCaptchaM (env : LoginEnv) (f : String) : Except AttemptExc (Option String) :=
  if containsSub CAPTCHA_PROMPT f then
    match env.captchaCode with
    | .error _ => .error .captcha
    | .ok _ =>
      if containsSub CAPTCHA_PROMPT env.postCaptchaResp then .ok none
      else .ok (some env.postCaptchaResp)
  else .ok (some f)

/-- `_handle_2fa`: without a configured secret, or with the 2FA marker
persisting after submission, the handler returns `None`. -/
def handle2faM (env : LoginEnv) (f : String) : Option String :=
  if containsSub TWO_FA_PROMPT f then
    if env.twoFaConfigured = false then none
    else if containsSub TWO_FA_PROMPT env.postTwoFaResp then none
    else some env.postTwoFaResp
  else some f

/-- `_attempt_login`: missing `PHPSESSID` raises `ValueError`; success
indicators short-circuit; then the CAPTCHA and 2FA stages; `.ok none`
is the non-exceptional failed attempt. -/
def attemptLogin (env : LoginEnv) : Except AttemptExc (Option String) :=
  match env.sessId with
  | none => .error .requestsOrValue
  | some sid =>
    if isLoginSuccessM env.firstResp then .ok (some sid)
    else
      match handleCaptchaM env env.firstResp with
      | .error e => .error e
      | .ok none => .ok none
      | .ok (some f2) =>
        match handle2faM env f2 with
        | none => .ok none
        | some f3 => if isLoginSuccessM f3 then .ok (some sid) else .ok none

inductive LoginErr where
  | loginError
  | captchaEscapes
  deriving DecidableEq, Repr

/-- The retry loop of `_perform_login`: `requests`/`ValueError`
exceptions and failed attempts are retried, a `CaptchaError`
propagates, exhaustion raises `LoginError`. -/
def performLoginLoop (sched : Nat → Except AttemptExc (Option String)) :
    Nat → Nat → Except LoginErr String
  | _, 0 => .error .loginError
  | i, n + 1 =>
    match sched i with
    | .ok (some s) => .ok s
    | .ok none => performLoginLoop sched (i + 1) n
    | .error .requestsOrValue => performLoginLoop sched (i + 1) n
    | .error .captcha => .error .captchaEscapes

def performLogin (sched : Nat → Except AttemptExc (Option String)) :
    Except LoginErr String :=
  performLoginLoop sched 0 LOGIN_MAX_RETRY_COUNT

/-! ## Mailbox PIN fetchers

`RenewalBot._get_pin_from_gmail` / `_fetch_pin_from_email` in
`Euserv_Renewal.py`, and `pin_extractor.get_euserv_pin`.  Each polling
attempt opens a fresh IMAP connection; the environment says what it
finds: a connection/protocol error, no matching message, or the
plain-text body of the most recent matching message. -/

inductive MailAttempt where
  | connError (msg : String)
  | noMatch
  | matchBody (body : String)

inductive MailEv where
  | connect
  | sleepWait (n : Nat)
  deriving DecidableEq, Repr

/-- Up to six digits at the head of `l`, all required. -/
def sixDigitsAt (l : List Char) : Option String :=
  let ds := l.take 6
  if ds.length = 6 ∧ ds.all Char.isDigit then some ⟨ds⟩ else none

/-- One anchored try of `re.search(r"PIN:\s*\n?(\d{6})", body, re.IGNORECASE)`:
the label `PIN:` case-insensitively, any whitespace (the optional
newline is subsumed), then six digits. -/
def pinAt : List Char → Option String
  | a :: b :: c :: d :: rest =>
    if a.toLower = 'p' ∧ b.toLower = 'i' ∧ c.toLower = 'n' ∧ d = ':' then
      sixDigitsAt (rest.dropWhile isPySpace)
    else none
  | _ => none

def findPinAux : List Char → Option String
  | [] => none
  | l@(_ :: rest) =>
    match pinAt l with
    | some p => some p
    | none => findPinAux rest

/-- The regex search over the whole body (earliest match wins). -/
def findPin (body : String) : Option String :=
  findPinAux body.toList

/-- `_get_pin_from_gmail`: three polling attempts; a connection error
raises `PinRetrievalError` at once; a found PIN returns at once; no
match or no PIN pattern sleeps 30 and retries; exhaustion raises
`PinRetrievalError`. -/
def getPinFromGmailLoop (env : Nat → MailAttempt) :
    Nat → Nat → List MailEv × Except String String
  | _, 0 => ([], .error "多次尝试后仍无法获取PIN码邮件。")
  | i, n + 1 =>
    match env i with
    | .connError m => ([.connect], .error ("邮件连接错误: " ++ m))
    | .noMatch =>
      let (tr, r) := getPinFromGmailLoop env (i + 1) n
      (.connect :: .sleepWait EMAIL_CHECK_INTERVAL :: tr, r)
    | .matchBody b =>
      match findPin b with
      | some p => ([.connect], .ok p)
      | none =>
        let (tr, r) := getPinFromGmailLoop env (i + 1) n
        (.connect :: .sleepWait EMAIL_CHECK_INTERVAL :: tr, r)

def getPinFromGmail (env : Nat → MailAttempt) : List MailEv × Except String String :=
  getPinFromGmailLoop env 0 EMAIL_MAX_RETRIES

/-- `pin_extractor.get_euserv_pin`: same search, but a matching message
whose body has no PIN pattern raises `ValueError` inside the `try`,
which the blanket `except Exception` re-raises — it is not retried. -/
def getEuservPinLoop (env : Nat → MailAttempt) :
    Nat → Nat → List MailEv × Except String String
  | _, 0 => ([], .error "多次尝试后仍无法获取当天的PIN码邮件。")
  | i, n + 1 =>
    match env i with
    | .connError m => ([.connect], .error m)
    | .noMatch =>
      let (tr, r) := getEuservPinLoop env (i + 1) n
      (.connect :: .sleepWait 30 :: tr, r)
    | .matchBody b =>
      match findPin b with
      | some p => ([.connect], .ok p)
      | none => ([.connect], .error "在邮件中未找到有效的PIN码格式。")

def getEuservPin (env : Nat → MailAttempt) : List MailEv × Except String String :=
  getEuservPinLoop env 0 3

/-! ## `RenewalBot._renew` (token exchange and confirmation)

The token-exchange endpoint answers JSON; the model carries the parsed
value.  `response_json.get("rs") != "success"` raises `RenewalError`
with the raw response; `response_json["token"]["value"]` raises a
`KeyError`/`TypeError` (not a `RenewalError`) when the nested field is
absent. -/

inductive Json where
  | str (s : String)
  | num (n : Int)
  | boolean (b : Bool)
  | null
  | arr (xs : List Json)
  | obj (kvs : List (String × Json))
  deriving Repr

/-- Dictionary lookup (`.get` / `[]` on a parsed JSON object). -/
def Json.lookup? : Json → String → Option Json
  | .obj kvs, k => kvs.lookup k
  | _, _ => none

/-- `response_json.get("rs") != "success"` is false exactly when the
field holds the string `"success"`. -/
def rsIsSuccess (j : Json) : Bool :=
  match j.lookup? "rs" with
  | some (.str s) => s == "success"
  | _ => false

inductive RenewEv where
  | postChooseOrder
  | postSecurityDialog
  | sleepPin (n : Nat)
  | fetchPin
  | postGetToken
  | postConfirm (token : Json)

inductive RenewExcM where
  | renewalError (raw : Json)
  | keyError
  | pinRetrieval (msg : String)

/-- `_renew`: select the order, trigger the PIN dialog, settle-sleep,
fetch the PIN (a `PinRetrievalError` propagates), exchange it for a
token, and confirm with the token. -/
def renewContract (pinResult : Except String String) (tokenResp : Json) :
    List RenewEv × Except RenewExcM Unit :=
  let pre : List RenewEv := [.postChooseOrder, .postSecurityDialog, .sleepPin WAITING_TIME_OF_PIN]
  match pinResult with
  | .error m => (pre ++ [.fetchPin], .error (.pinRetrieval m))
  | .ok _pin =>
    let tr := pre ++ [.fetchPin, .postGetToken]
    if rsIsSuccess tokenResp then
      match (tokenResp.lookup? "token").bind (fun t => t.lookup? "value") with
      | none => (tr, .error .keyError)
      | some tok => (tr ++ [.postConfirm tok], .ok ())
    else (tr, .error (.renewalError tokenResp))

/-! ## Run controller (`_process_server_renewals`, `run`)

A `Server` is the record `_parse_server_row` produces.  The renewal of
one order is summarised by the environment: it succeeds, raises
`RenewalError` or a `requests` exception (both caught per contract), or
raises `PinRetrievalError` (not in the per-contract `except` tuple). -/

structure Server where
  id : String
  renewable : Bool
  date : Option String

inductive RenewOutcome where
  | success
  | raisesRenewalError (raw : String)
  | raisesRequestException
  | raisesPinRetrievalError (msg : String)

/-- `_process_server_renewals`: returns the ids for which `_renew` was
invoked, and either the `all_success` flag or the uncaught exception's
message.  `RenewalError` and `requests.RequestException` are caught and
clear `all_success`; `PinRetrievalError` propagates. -/
def processServerRenewals (out : String → RenewOutcome) :
    List Server → List String × Except String Bool
  | [] => ([], .ok true)
  | s :: rest =>
    match out s.id with
    | .success =>
      let (l, r) := processServerRenewals out rest
      (s.id :: l, r)
    | .raisesRenewalError _ =>
      let (l, r) := processServerRenewals out rest
      (s.id :: l, r.map (fun _ => false))
    | .raisesRequestException =>
      let (l, r) := processServerRenewals out rest
      (s.id :: l, r.map (fun _ => false))
    | .raisesPinRetrievalError m => ([s.id], .error m)

structure RunEnv where
  configOk : Bool
  login : Except Unit Unit
  servers : List Server
  renewOutcome : String → RenewOutcome

inductive Ev where
  | login
  | listServers
  | renewAttempt (id : String)
  | postCheck
  | sendStatus (status : String)
  deriving DecidableEq, Repr

/-- `run`: config validation, login, listing, the renewable/none/empty
three-way branch, post-check, and the `finally` notification.  The
skip branch returns `EXIT_SKIPPED` directly (the `finally` clause still
sends the status email); the four custom errors are caught at run
level and classify the run as failed. -/
def runBot (env : RunEnv) : Nat × List Ev :=
  if env.configOk = false then (EXIT_FAILURE, [.sendStatus "配置错误"])
  else
    match env.login with
    | .error _ => (EXIT_FAILURE, [.login, .sendStatus "失败"])
    | .ok _ =>
      let allServers := env.servers
      let toRenew := allServers.filter (·.renewable)
      if allServers.isEmpty then
        (EXIT_FAILURE, [.login, .listServers, .postCheck, .sendStatus "异常"])
      else if toRenew.isEmpty then
        (EXIT_SKIPPED, [.login, .listServers, .sendStatus "成功"])
      else
        let (attempted, res) := processServerRenewals env.renewOutcome toRenew
        match res with
        | .error _ =>
          (EXIT_FAILURE,
            [.login, .listServers] ++ attempted.map Ev.renewAttempt ++ [.sendStatus "失败"])
        | .ok allOk =>
          ((if allOk then EXIT_SUCCESS else EXIT_FAILURE),
            [.login, .listServers] ++ attempted.map Ev.renewAttempt ++
              [.postCheck, .sendStatus (if allOk then "成功" else "失败")])

/-! ## Auxiliary predicates used in the claim statements -/

/-- Two secrets that differ only in letter case. -/
def CaseEqv (k k' : String) : Prop :=
  k.toList.map Char.toUpper = k'.toList.map Char.toUpper

/-- A polling attempt that yields no PIN: either no matching message,
or a matching message whose body has no PIN pattern. -/
def yieldsNoPin : MailAttempt → Prop
  | .connError _ => False
  | .noMatch => True
  | .matchBody b => findPin b = none

/-- A renewal outcome other than `PinRetrievalError`. -/
def notPinErr : RenewOutcome → Prop
  | .raisesPinRetrievalError _ => False
  | _ => True

/-! # Theorems -/

/-! ## Lemmas on the math evaluator -/

/-- On trees of the closed grammar, `_eval` computes the arithmetic
denotation (floor division, `None` on division by zero). -/
theorem toArith_eval : ∀ t a, toArith t = some a → (pyEvalNode t).toOption = a.evalA
  | .constInt n, a, h => by
    simp only [toArith, Option.some.injEq] at h
    subst h
    rfl
  | .binOp l op r, a, h => by
    simp only [toArith] at h
    cases hl : toArith l <;> rw [hl] at h
    case none => cases op <;> simp at h
    case some la =>
      cases hr : toArith r <;> rw [hr] at h
      case none => cases op <;> simp at h
      case some ra =>
        have ihl := toArith_eval l la hl
        have ihr := toArith_eval r ra hr
        cases op <;> simp at h
        all_goals subst h
        all_goals
          cases hel : pyEvalNode l <;> cases her : pyEvalNode r <;>
            simp only [hel, Except.toOption] at ihl <;>
            simp only [her, Except.toOption] at ihr <;>
            simp only [pyEvalNode, opSupported, hel, her, Arith.evalA, ← ihl, ← ihr,
              applyOp, Except.toOption, if_true] <;>
            try rfl
        all_goals
          rename_i b
          by_cases hb : b = 0 <;> simp [hb]
  | .unaryOp _, a, h => by simp [toArith] at h
  | .call0 _, a, h => by simp [toArith] at h
  | .call1 _ _, a, h => by simp [toArith] at h
  | .name _, a, h => by simp [toArith] at h
  | .attr _ _, a, h => by simp [toArith] at h

/-- Outside the closed grammar, `_eval` raises (`ValueError`). -/
theorem toArith_none_eval : ∀ t, toArith t = none → pyEvalNode t = .error ()
  | .constInt n, h => by simp [toArith] at h
  | .binOp l op r, h => by
    simp only [toArith] at h
    cases hl : toArith l <;> rw [hl] at h
    case none =>
      have ih := toArith_none_eval l hl
      by_cases hsup : opSupported op = true <;> simp [pyEvalNode, hsup, ih]
    case some la =>
      cases hr : toArith r <;> rw [hr] at h
      case none =>
        have ih := toArith_none_eval r hr
        by_cases hsup : opSupported op = true <;>
          cases hel : pyEvalNode l <;> simp [pyEvalNode, hsup, hel, ih]
      case some ra =>
        cases op <;> simp at h <;> simp [pyEvalNode, opSupported]
  | .unaryOp _, h => rfl
  | .call0 _, h => rfl
  | .call1 _ _, h => rfl
  | .name _, h => rfl
  | .attr _ _, h => rfl

/-- `_safe_eval_math` returns a value only for strings that parse to a
tree of the closed grammar. -/
theorem safeEval_closed_grammar (s : String) (v : Int)
    (h : safeEvalMathStr s = some v) :
    ∃ t a, pyParseArith s = some t ∧ toArith t = some a := by
  unfold safeEvalMathStr at h
  cases hp : pyParseArith s <;> rw [hp] at h
  case none => simp at h
  case some t =>
    refine ⟨t, ?_⟩
    cases ha : toArith t with
    | none =>
      have h' : (pyEvalNode t).toOption = some v := h
      rw [toArith_none_eval t ha] at h'
      simp [Except.toOption] at h'
    | some a => exact ⟨a, rfl, rfl⟩

/-- **C7** (claim): for every input string over the modelled arithmetic
alphabet, `_safe_eval_math` returns the exact integer value whenever
the string parses to a tree of the closed grammar of digit literals and
the four binary operators (standard precedence via the parser, floor
semantics via `Arith.evalA`), and returns `None` — it is a total
function, never an exception — for syntax errors, trees outside the
closed grammar, and division by zero. -/
theorem claim_C7 (s : String) (_hws : wellScanned s = true) :
    (∀ t a v, pyParseArith s = some t → toArith t = some a → Arith.evalA a = some v →
      safeEvalMathStr s = some v) ∧
    (pyParseArith s = none → safeEvalMathStr s = none) ∧
    (∀ t, pyParseArith s = some t → toArith t = none → safeEvalMathStr s = none) ∧
    (∀ t a, pyParseArith s = some t → toArith t = some a → Arith.evalA a = none →
      safeEvalMathStr s = none) := by
  refine ⟨?_, ?_, ?_, ?_⟩
  · intro t a v hp ha hv
    unfold safeEvalMathStr
    rw [hp]
    show (pyEvalNode t).toOption = some v
    rw [toArith_eval t a ha, hv]
  · intro hp
    unfold safeEvalMathStr
    rw [hp]
  · intro t hp ha
    unfold safeEvalMathStr
    rw [hp]
    show (pyEvalNode t).toOption = none
    rw [toArith_none_eval t ha]
    rfl
  · intro t a hp ha hv
    unfold safeEvalMathStr
    rw [hp]
    show (pyEvalNode t).toOption = none
    rw [toArith_eval t a ha, hv]

/-- Witness for C7: `"2+3*4"` evaluates with precedence to `14`, and
`"10/0"` yields `None`. -/
theorem claim_C7_witness :
    safeEvalMathStr "2+3*4" = some 14 ∧ safeEvalMathStr "10/0" = none := by
  constructor
  · exact (claim_C7 "2+3*4" (by decide)).1
      (.binOp (.constInt 2) .add (.binOp (.constInt 3) .mult (.constInt 4)))
      (.add (.num 2) (.mul (.num 3) (.num 4))) 14 (by rfl) (by rfl) (by decide)
  · exact (claim_C7 "10/0" (by decide)).2.2.2
      (.binOp (.constInt 10) .div (.constInt 0))
      (.div (.num 10) (.num 0)) (by rfl) (by rfl) (by decide)

/-- **C2** (code bug): the claim asks that the math-expression
evaluation of a recognised CAPTCHA answer never reach a name lookup,
attribute access or call.  That holds of `_safe_eval_math`
(`safeEval_closed_grammar`, `toArith_none_eval`), but
`renewal_script.solve_captcha_api` passes the recognised text to the
builtin `eval`: on the recognised text `"(1)(2)"` that `eval` performs
a function call, while the restricted evaluator returns `None` for the
same input. -/
theorem claim_C2 :
    solveCaptchaApiEval "(1)(2)" = [GEffect.callPerformed] ∧
    safeEvalMathStr "(1)(2)" = none ∧
    trySolveMath "(1)(2)" = none := by
  refine ⟨by decide, by decide, by decide⟩

/-! ## Lemmas on `_clean_math_expr` -/

theorem filter_dropWhile_eq {p q : Char → Bool}
    (hpq : ∀ c, q c = true → p c = false) :
    ∀ l : List Char, (l.dropWhile q).filter p = l.filter p := by
  intro l
  induction l with
  | nil => rfl
  | cons c t ih =>
    by_cases hq : q c = true
    · rw [List.dropWhile_cons_of_pos hq, ih, List.filter_cons_of_neg]
      simp [hpq c hq]
    · rw [List.dropWhile_cons_of_neg (by simpa using hq)]

theorem filter_pyStripL {p : Char → Bool}
    (hp : ∀ c, isPySpace c = true → p c = false) (l : List Char) :
    (pyStripL l).filter p = l.filter p := by
  unfold pyStripL
  rw [List.filter_reverse, filter_dropWhile_eq hp, List.filter_reverse,
    List.reverse_reverse, filter_dropWhile_eq hp]

theorem space_not_math :
    ∀ c : Char, isPySpace c = true → (decide (c ∈ mathAlphabet)) = false := by
  intro c hc
  simp [isPySpace] at hc
  rcases hc with rfl | rfl | rfl | rfl | rfl | rfl <;> decide

theorem chain_filterMap : ∀ l : List Char,
    ((replaceChar 'X' '*' (replaceChar 'x' '*' l)).filter (· ≠ '=')).filter
        (· ∈ mathAlphabet) = l.filterMap cleanCharSpec := by
  intro l
  induction l with
  | nil => rfl
  | cons c t ih =>
    by_cases h1 : c = 'x'
    · subst h1
      exact congrArg (List.cons '*') ih
    by_cases h2 : c = 'X'
    · subst h2
      exact congrArg (List.cons '*') ih
    by_cases h4 : c = '='
    · subst h4
      exact ih
    by_cases h3 : c ∈ mathAlphabet
    · simpa [replaceChar, List.filter_cons, List.filterMap_cons, cleanCharSpec,
        h1, h2, h3, h4] using ih
    · simpa [replaceChar, List.filter_cons, List.filterMap_cons, cleanCharSpec,
        h1, h2, h3, h4] using ih

/-- **C10** (implicit behaviour of the cleaning pipeline): character
for character, `_clean_math_expr` maps `x`/`X` to `*`, deletes `=`, and
silently deletes every remaining character outside `0-9 + - * /`; as a
consequence `_try_solve_math` computes an answer for noisy recognised
strings such as `"3+5a"`, which yields `"8"` rather than no result. -/
theorem claim_C10 :
    (∀ raw : String, (cleanMathExpr raw).toList = raw.toList.filterMap cleanCharSpec) ∧
    trySolveMath "3+5a" = some "8" := by
  constructor
  · intro raw
    show (pyStripL ((replaceChar 'X' '*' (replaceChar 'x' '*' raw.toList)).filter
        (· ≠ '='))).filter (· ∈ mathAlphabet) = raw.toList.filterMap cleanCharSpec
    rw [filter_pyStripL space_not_math]
    exact chain_filterMap raw.toList
  · decide


/-! ## CAPTCHA solver policy (C3) -/

/-- **C3**: on login attempt 1, a usable local recognition result is
returned and the remote API is never called; from attempt 3 on, with
remote credentials configured, the remote API is called before local
recognition. -/
theorem claim_C3 :
    (∀ env s, env.localRes = .ok (some s) → s ≠ "" →
      solveCaptcha 1 env = ([CapEv.localCall], .ok s)) ∧
    (∀ env attempt, 3 ≤ attempt → env.creds = true →
      (solveCaptcha attempt env).1.head? = some CapEv.apiCall) := by
  constructor
  · intro env s hl hs
    have h3 : ¬(3 ≤ 1 ∧ env.creds = true) := by omega
    simp only [solveCaptcha, if_neg h3]
    simp [solveCaptchaRest, hl, truthyS, hs]
  · intro env attempt h3 hc
    have hcond : 3 ≤ attempt ∧ env.creds = true := ⟨h3, hc⟩
    simp only [solveCaptcha, if_pos hcond]
    by_cases ha : truthyS (env.apiRes 0) = true
    · simp [ha]
    · simp only [Bool.not_eq_true] at ha
      simp [ha]

/-- Witness for C3 at a concrete environment: local OCR answers
`"13"` on attempt 1 without an API call; on attempt 3 with credentials
the first call is the remote API. -/
theorem claim_C3_witness :
    solveCaptcha 1 ⟨true, .ok (some "13"), fun _ => some "14"⟩ =
      ([CapEv.localCall], .ok "13") ∧
    (solveCaptcha 3 ⟨true, .ok (some "13"), fun _ => some "14"⟩).1.head? =
      some CapEv.apiCall := by
  constructor
  · exact claim_C3.1 ⟨true, .ok (some "13"), fun _ => some "14"⟩ "13" rfl (by decide)
  · exact claim_C3.2 ⟨true, .ok (some "13"), fun _ => some "14"⟩ 3 (by omega) rfl

/-! ## Login state machine: persistent CAPTCHA marker (C5) -/

/-- **C5**: if the credential response carries the CAPTCHA marker, the
solver produces an answer, and the marker is still present after
resubmission, then that login attempt returns the non-exceptional
failed result (`.ok none`), and the outer retry loop goes on with the
next full attempt. -/
theorem claim_C5 (env : LoginEnv) (sid : String) (c : String)
    (hsess : env.sessId = some sid)
    (hfail : isLoginSuccessM env.firstResp = false)
    (hm1 : containsSub CAPTCHA_PROMPT env.firstResp = true)
    (hcode : env.captchaCode = .ok c)
    (hm2 : containsSub CAPTCHA_PROMPT env.postCaptchaResp = true) :
    attemptLogin env = .ok none ∧
    (∀ sched : Nat → Except AttemptExc (Option String), sched 0 = attemptLogin env →
      performLogin sched = performLoginLoop sched 1 2) := by
  have hatt : attemptLogin env = .ok none := by
    unfold attemptLogin
    rw [hsess]
    simp only [hfail, Bool.false_eq_true, if_false]
    unfold handleCaptchaM
    rw [hcode]
    simp [hm1, hm2]
  refine ⟨hatt, ?_⟩
  intro sched h0
  have hstep : performLogin sched =
      match sched 0 with
      | .ok (some s) => .ok s
      | .ok none => performLoginLoop sched 1 2
      | .error .requestsOrValue => performLoginLoop sched 1 2
      | .error .captcha => .error .captchaEscapes := rfl
  rw [hstep, h0, hatt]

/-- Witness for C5: a concrete environment whose CAPTCHA marker
persists; the attempt fails non-exceptionally, and with a second
attempt that succeeds the outer loop logs in. -/
theorem claim_C5_witness :
    attemptLogin ⟨some "S", CAPTCHA_PROMPT, .ok "42", CAPTCHA_PROMPT, false, ""⟩ =
      .ok none ∧
    performLogin (fun i =>
      if i = 0 then attemptLogin ⟨some "S", CAPTCHA_PROMPT, .ok "42", CAPTCHA_PROMPT, false, ""⟩
      else .ok (some "S2")) = .ok "S2" := by
  have h := claim_C5 ⟨some "S", CAPTCHA_PROMPT, .ok "42", CAPTCHA_PROMPT, false, ""⟩
    "S" "42" rfl (by decide) (by decide) rfl (by decide)
  refine ⟨h.1, ?_⟩
  rw [h.2 _ (by simp)]
  rfl

/-! ## TOTP/HOTP (C8) -/

theorem zfillDigits_length : ∀ k n, (zfillDigits k n).length = k := by
  intro k
  induction k with
  | zero => intro n; rfl
  | succ k ih =>
    intro n
    simp [zfillDigits, ih]

theorem digitChar_mod10_isDigit (n : Nat) : (Nat.digitChar (n % 10)).isDigit = true := by
  have h : n % 10 < 10 := Nat.mod_lt _ (by norm_num)
  generalize n % 10 = m at h
  interval_cases m <;> decide

theorem zfillDigits_isDigit : ∀ k n, (zfillDigits k n).all Char.isDigit = true := by
  intro k
  induction k with
  | zero => intro n; rfl
  | succ k ih =>
    intro n
    simp [zfillDigits, List.all_append, ih, digitChar_mod10_isDigit]

/-- Every value `_hotp` returns is six zero-filled decimal digits. -/
theorem hotpM_form (key : String) (counter : Nat) (s : String)
    (h : hotpM key counter = some s) :
    s.length = 6 ∧ s.toList.all Char.isDigit = true := by
  unfold hotpM at h
  simp only at h
  split at h
  · simp at h
  · split at h
    · simp only [Option.some.injEq] at h
      subst h
      refine ⟨?_, ?_⟩
      · show (zfillDigits 6 _).length = 6
        exact zfillDigits_length 6 _
      · show (zfillDigits 6 _).all Char.isDigit = true
        exact zfillDigits_isDigit 6 _
    · simp at h

/-- **C8**: for every base32 secret accepted by the decoder and every
counter in `>Q` range (`hotpM … = some s`), the code is deterministic,
is exactly six zero-padded decimal digits, and is invariant under
changing the case of the secret. -/
theorem claim_C8 (key : String) (counter : Nat) (s : String)
    (h : hotpM key counter = some s) :
    (s.length = 6 ∧ s.toList.all Char.isDigit = true) ∧
    hotpM key counter = hotpM key counter ∧
    (∀ key', CaseEqv key' key → hotpM key' counter = hotpM key counter) := by
  refine ⟨hotpM_form key counter s h, rfl, ?_⟩
  intro key' hk
  have hmap : key'.toList.map Char.toUpper = key.toList.map Char.toUpper := hk
  have hlen : key'.length = key.length := by
    have h2 := congrArg List.length hmap
    simp only [List.length_map] at h2
    exact h2
  unfold hotpM
  rw [hmap, hlen]

set_option maxRecDepth 10000 in
/-- Witness for C8 at the RFC 4226 test secret (base32 of
`"12345678901234567890"`): counter 0 yields the published vector
`755224`, six digits, and the lowercase spelling of the secret yields
the same code. -/
theorem claim_C8_witness :
    hotpM "GEZDGNBVGY3TQOJQGEZDGNBVGY3TQOJQ" 0 = some "755224" ∧
    ("755224".length = 6 ∧ "755224".toList.all Char.isDigit = true) ∧
    hotpM "gezdgnbvgy3tqojqgezdgnbvgy3tqojq" 0 =
      hotpM "GEZDGNBVGY3TQOJQGEZDGNBVGY3TQOJQ" 0 := by
  have hv : hotpM "GEZDGNBVGY3TQOJQGEZDGNBVGY3TQOJQ" 0 = some "755224" := by decide
  have h := claim_C8 "GEZDGNBVGY3TQOJQGEZDGNBVGY3TQOJQ" 0 "755224" hv
  exact ⟨hv, h.1, h.2.2 "gezdgnbvgy3tqojqgezdgnbvgy3tqojq" (by unfold CaseEqv; decide)⟩

/-! ## Mailbox PIN fetchers (C4) -/

/-- A polling attempt that yields no PIN makes the bot fetcher sleep
and move on to the next attempt. -/
theorem gmail_loop_step (env : Nat → MailAttempt) (i n : Nat)
    (h : yieldsNoPin (env i)) :
    getPinFromGmailLoop env i (n + 1) =
      (MailEv.connect :: MailEv.sleepWait EMAIL_CHECK_INTERVAL ::
        (getPinFromGmailLoop env (i + 1) n).1,
       (getPinFromGmailLoop env (i + 1) n).2) := by
  cases he : env i with
  | connError m => rw [he] at h; exact (h : False).elim
  | noMatch => simp [getPinFromGmailLoop, he]
  | matchBody b =>
    rw [he] at h
    simp only [yieldsNoPin] at h
    simp [getPinFromGmailLoop, he, h]

/-- **C4 counterexample**: a first-attempt matching message whose body
has no PIN pattern.  The claim says this case is retried, not raised
immediately; `pin_extractor.get_euserv_pin` raises at once after a
single connection and no inter-attempt sleep, while
`RenewalBot._get_pin_from_gmail` polls all three attempts on the same
mailbox trace. -/
theorem claim_C4_counterexample :
    getEuservPin (fun _ => .matchBody "Your security mail has arrived") =
      ([MailEv.connect], .error "在邮件中未找到有效的PIN码格式。") ∧
    MailEv.sleepWait 30 ∉
      (getEuservPin (fun _ => .matchBody "Your security mail has arrived")).1 ∧
    getPinFromGmail (fun _ => .matchBody "Your security mail has arrived") =
      ([.connect, .sleepWait 30, .connect, .sleepWait 30, .connect, .sleepWait 30],
        .error "多次尝试后仍无法获取PIN码邮件。") := by
  refine ⟨rfl, by decide, rfl⟩

/-- **C4** (amended): in `RenewalBot._get_pin_from_gmail`, a run with
no PIN across all three polling attempts connects and sleeps 30 units
three times and then raises `PinRetrievalError`; a valid
`PIN:`+6-digit body on the first attempt returns immediately with no
sleep; a matching body without a PIN pattern is retried.  In the
legacy `pin_extractor.get_euserv_pin`, that last case instead raises
immediately (`ValueError` re-raised by its blanket handler). -/
theorem claim_C4_amended :
    (∀ env : Nat → MailAttempt, (∀ i, i < 3 → yieldsNoPin (env i)) →
      getPinFromGmail env =
        ([.connect, .sleepWait 30, .connect, .sleepWait 30, .connect, .sleepWait 30],
          .error "多次尝试后仍无法获取PIN码邮件。")) ∧
    (∀ env b p, env 0 = .matchBody b → findPin b = some p →
      getPinFromGmail env = ([.connect], .ok p)) ∧
    (∀ env b, env 0 = .matchBody b → findPin b = none →
      ∃ tr r, getPinFromGmail env =
        (MailEv.connect :: MailEv.sleepWait 30 :: tr, r)) ∧
    (∀ env b, env 0 = .matchBody b → findPin b = none →
      getEuservPin env = ([.connect], .error "在邮件中未找到有效的PIN码格式。")) := by
  refine ⟨?_, ?_, ?_, ?_⟩
  · intro env hall
    have h0 := hall 0 (by norm_num)
    have h1 := hall 1 (by norm_num)
    have h2 := hall 2 (by norm_num)
    show getPinFromGmailLoop env 0 (2 + 1) = _
    rw [gmail_loop_step env 0 2 h0]
    rw [show (2 : Nat) = 1 + 1 from rfl, gmail_loop_step env (0 + 1) 1 h1]
    rw [show (1 : Nat) = 0 + 1 from rfl, gmail_loop_step env (0 + 1 + 1) 0 h2]
    rfl
  · intro env b p h0 hp
    show getPinFromGmailLoop env 0 3 = _
    simp [getPinFromGmailLoop, h0, hp]
  · intro env b h0 hp
    refine ⟨(getPinFromGmailLoop env 1 2).1, (getPinFromGmailLoop env 1 2).2, ?_⟩
    show getPinFromGmailLoop env 0 3 = _
    simp [getPinFromGmailLoop, h0, hp, EMAIL_CHECK_INTERVAL]
  · intro env b h0 hp
    show getEuservPinLoop env 0 3 = _
    simp [getEuservPinLoop, h0, hp]

/-- Witness for the amended C4: exhaustion on an always-empty mailbox,
and an immediate return for a first-attempt body `"PIN:\n123456"`. -/
theorem claim_C4_amended_witness :
    getPinFromGmail (fun _ => .noMatch) =
      ([.connect, .sleepWait 30, .connect, .sleepWait 30, .connect, .sleepWait 30],
        .error "多次尝试后仍无法获取PIN码邮件。") ∧
    getPinFromGmail (fun _ => .matchBody "PIN:\n123456") = ([.connect], .ok "123456") := by
  constructor
  · exact claim_C4_amended.1 (fun _ => .noMatch) (fun i _ => trivial)
  · exact claim_C4_amended.2.1 (fun _ => .matchBody "PIN:\n123456") "PIN:\n123456"
      "123456" rfl (by decide)

/-! ## Token exchange (C9) -/

/-- **C9**: with the PIN in hand, `_renew` raises `RenewalError`
carrying the raw response exactly when the top-level `rs` field is not
the string `"success"`; when it is, and the nested `token.value` field
is present, the token is submitted to the final confirmation POST and
the step succeeds. -/
theorem claim_C9 (pin : String) (resp : Json) :
    ((renewContract (.ok pin) resp).2 = .error (.renewalError resp) ↔
      rsIsSuccess resp = false) ∧
    (∀ tok, rsIsSuccess resp = true →
      (resp.lookup? "token").bind (fun t => t.lookup? "value") = some tok →
      renewContract (.ok pin) resp =
        ([.postChooseOrder, .postSecurityDialog, .sleepPin 30, .fetchPin, .postGetToken,
          .postConfirm tok], .ok ())) := by
  constructor
  · constructor
    · intro h
      by_contra hb
      simp only [Bool.not_eq_false] at hb
      simp only [renewContract, if_pos hb] at h
      cases hl : (resp.lookup? "token").bind (fun t => t.lookup? "value") <;>
        rw [hl] at h <;> simp at h
    · intro h
      simp [renewContract, h]
  · intro tok hrs hl
    simp [renewContract, hrs, hl, WAITING_TIME_OF_PIN]

/-- Witness for C9: an `rs:"error"` response raises `RenewalError`
with the raw response; an `rs:"success"` response with a nested token
leads to the confirmation POST. -/
theorem claim_C9_witness :
    (renewContract (.ok "123456") (.obj [("rs", .str "error")])).2 =
      .error (.renewalError (.obj [("rs", .str "error")])) ∧
    renewContract (.ok "123456")
        (.obj [("rs", .str "success"), ("token", .obj [("value", .str "T")])]) =
      ([.postChooseOrder, .postSecurityDialog, .sleepPin 30, .fetchPin, .postGetToken,
        .postConfirm (.str "T")], .ok ()) := by
  constructor
  · exact (claim_C9 "123456" (.obj [("rs", .str "error")])).1.mpr rfl
  · exact (claim_C9 "123456"
      (.obj [("rs", .str "success"), ("token", .obj [("value", .str "T")])])).2
      (.str "T") rfl rfl

/-! ## Per-contract error isolation (C1) -/

/-- `RenewalError` is caught at the per-contract boundary: the rest of
the list is still processed, with `all_success` cleared. -/
theorem processServerRenewals_renewalError (out : String → RenewOutcome)
    (s : Server) (rest : List Server) (raw : String)
    (h : out s.id = .raisesRenewalError raw) :
    processServerRenewals out (s :: rest) =
      (s.id :: (processServerRenewals out rest).1,
       (processServerRenewals out rest).2.map (fun _ => false)) := by
  simp [processServerRenewals, h]

/-- `PinRetrievalError` is not in the per-contract `except` tuple: it
stops the loop, the contracts after it are never attempted. -/
theorem processServerRenewals_pin (out : String → RenewOutcome) :
    ∀ (pre : List Server) (s : Server) (post : List Server) (msg : String),
    (∀ t ∈ pre, notPinErr (out t.id)) →
    out s.id = .raisesPinRetrievalError msg →
    processServerRenewals out (pre ++ s :: post) =
      (pre.map Server.id ++ [s.id], .error msg) := by
  intro pre
  induction pre with
  | nil =>
    intro s post msg _ hs
    simp [processServerRenewals, hs]
  | cons t ts ih =>
    intro s post msg hpre hs
    have ht := hpre t (by simp)
    have hts : ∀ u ∈ ts, notPinErr (out u.id) := fun u hu => hpre u (by simp [hu])
    cases hout : out t.id
    case raisesPinRetrievalError m => rw [hout] at ht; exact (ht : False).elim
    all_goals
      simp [processServerRenewals, hout, ih s post msg hts hs, Except.map]

/-- **C1 counterexample**: two renewable contracts, the first raising
`PinRetrievalError` while fetching the PIN.  The claim says the second
is still attempted and the run does not abort; instead the run aborts
to the run-level handler: contract `B` is never attempted, the
post-renewal check is skipped, and the run exits with the failure
code (the claim promised the remaining contracts are attempted). -/
theorem claim_C1_counterexample :
    runBot ⟨true, .ok (), [⟨"A", true, none⟩, ⟨"B", true, none⟩],
        fun i => if i = "A" then .raisesPinRetrievalError "mailbox unreachable"
                 else .success⟩ =
      (EXIT_FAILURE, [.login, .listServers, .renewAttempt "A", .sendStatus "失败"]) ∧
    Ev.renewAttempt "B" ∉
      (runBot ⟨true, .ok (), [⟨"A", true, none⟩, ⟨"B", true, none⟩],
        fun i => if i = "A" then .raisesPinRetrievalError "mailbox unreachable"
                 else .success⟩).2 ∧
    Ev.postCheck ∉
      (runBot ⟨true, .ok (), [⟨"A", true, none⟩, ⟨"B", true, none⟩],
        fun i => if i = "A" then .raisesPinRetrievalError "mailbox unreachable"
                 else .success⟩).2 := by
  refine ⟨rfl, by decide, by decide⟩

/-- **C1** (amended): only `RenewalError` and HTTP request exceptions
are caught and logged at the per-contract boundary; a
`PinRetrievalError` raised during one contract's renewal propagates out
of `_process_server_renewals`, is caught and logged at the run level,
the remaining contracts are not attempted, the post-check is skipped,
the run returns the failure exit code, and the status notification is
still sent. -/
theorem claim_C1_amended :
    (∀ out (s : Server) rest raw, out s.id = RenewOutcome.raisesRenewalError raw →
      processServerRenewals out (s :: rest) =
        (s.id :: (processServerRenewals out rest).1,
         (processServerRenewals out rest).2.map (fun _ => false))) ∧
    (∀ out pre (s : Server) post msg, (∀ t ∈ pre, notPinErr (out t.id)) →
      out s.id = .raisesPinRetrievalError msg →
      processServerRenewals out (pre ++ s :: post) =
        (pre.map Server.id ++ [s.id], .error msg)) ∧
    (∀ (env : RunEnv) pre (s : Server) post msg,
      env.configOk = true → env.login = .ok () →
      (∀ t ∈ pre, notPinErr (env.renewOutcome t.id)) →
      env.renewOutcome s.id = .raisesPinRetrievalError msg →
      env.servers.filter (·.renewable) = pre ++ s :: post →
      runBot env = (EXIT_FAILURE,
        [Ev.login, Ev.listServers] ++
          (pre.map Server.id ++ [s.id]).map Ev.renewAttempt ++
          [Ev.sendStatus "失败"])) := by
  refine ⟨processServerRenewals_renewalError, fun out => processServerRenewals_pin out, ?_⟩
  intro env pre s post msg hc hl hpre hs hfilter
  have hproc := processServerRenewals_pin env.renewOutcome pre s post msg hpre hs
  have hne : env.servers.isEmpty = false := by
    cases hsv : env.servers with
    | nil => rw [hsv] at hfilter; simp at hfilter
    | cons _ _ => rfl
  have hto : ((env.servers.filter (·.renewable)).isEmpty) = false := by
    rw [hfilter]
    cases pre <;> rfl
  unfold runBot
  rw [if_neg (by simp [hc])]
  rw [hl]
  simp only [hne, Bool.false_eq_true, if_false, hto]
  rw [hfilter, hproc]

/-- Witness for the amended C1: contract `A` raises `RenewalError`
(caught per contract), contract `B` raises `PinRetrievalError`; the
run attempts `A` and `B`, aborts before any later contract, and fails. -/
theorem claim_C1_amended_witness :
    runBot ⟨true, .ok (), [⟨"A", true, none⟩, ⟨"B", true, none⟩],
        fun i => if i = "A" then .raisesRenewalError "token refused"
                 else .raisesPinRetrievalError "no pin"⟩ =
      (EXIT_FAILURE,
        [.login, .listServers, .renewAttempt "A", .renewAttempt "B",
         .sendStatus "失败"]) := by
  have h := claim_C1_amended.2.2
    ⟨true, .ok (), [⟨"A", true, none⟩, ⟨"B", true, none⟩],
      fun i => if i = "A" then .raisesRenewalError "token refused"
               else .raisesPinRetrievalError "no pin"⟩
    [⟨"A", true, none⟩] ⟨"B", true, none⟩ [] "no pin"
    rfl rfl
    (by intro t ht; rcases List.mem_singleton.mp ht with rfl; exact trivial)
    rfl rfl
  simpa using h

/-! ## Run controller skip path (C6) -/

/-- **C6**: when the listing returns at least one contract and none is
renewable, the run returns `EXIT_SKIPPED`, never invokes the renewal
orchestrator or the post-renewal check, and still sends the status
notification. -/
theorem claim_C6 (env : RunEnv) (hc : env.configOk = true)
    (hl : env.login = .ok ()) (hne : env.servers ≠ [])
    (hall : ∀ s ∈ env.servers, s.renewable = false) :
    runBot env = (EXIT_SKIPPED, [.login, .listServers, .sendStatus "成功"]) ∧
    (∀ i, Ev.renewAttempt i ∉ (runBot env).2) ∧
    Ev.postCheck ∉ (runBot env).2 ∧
    Ev.sendStatus "成功" ∈ (runBot env).2 := by
  have hfilter : env.servers.filter (·.renewable) = [] := by
    rw [List.filter_eq_nil_iff]
    intro s hs
    simp [hall s hs]
  have hnee : env.servers.isEmpty = false := by
    cases hsv : env.servers with
    | nil => exact absurd hsv hne
    | cons _ _ => rfl
  have hrun : runBot env = (EXIT_SKIPPED, [.login, .listServers, .sendStatus "成功"]) := by
    unfold runBot
    rw [if_neg (by simp [hc])]
    rw [hl]
    simp [hnee, hfilter]
  refine ⟨hrun, ?_, ?_, ?_⟩ <;> rw [hrun] <;> simp

/-- Witness for C6: one listed, non-renewable contract. -/
theorem claim_C6_witness :
    runBot ⟨true, .ok (), [⟨"A", false, some "2026-01-01"⟩], fun _ => .success⟩ =
      (EXIT_SKIPPED, [.login, .listServers, .sendStatus "成功"]) := by
  exact (claim_C6 ⟨true, .ok (), [⟨"A", false, some "2026-01-01"⟩], fun _ => .success⟩
    rfl rfl (by simp) (by intro s hs; rcases List.mem_singleton.mp hs with rfl; rfl)).1

end Euserv
